import Mathlib

/-!
A shallow embedding of the card-battler combat engine (status_effects.py,
card.py, deck.py, character.py, combat.py) and proofs of the spec claims.

Python integers are modelled as `Int`.  The two fractional modifiers in the
source, `int(amount * 1.5)` and `int(amount * 0.75)`, truncate toward zero
and are exact at game-scale magnitudes, so they are modelled as
`Int.tdiv (amount * 3) 2` and `Int.tdiv (amount * 3) 4` (tdiv truncates
toward zero).  Python dicts (status effects keyed by name, card status
grants) are modelled as association lists in insertion order, which is the
iteration order of a Python dict.  `random.shuffle` is modelled by an
explicit `shuffle : List Card -> List Card` parameter; theorems that need
it assume the shuffle is a permutation.
-/

/-- status_effects.py `StatusType`. -/
inductive StatusType
  | BUFF
  | DEBUFF
  | NEUTRAL
deriving DecidableEq, Repr

/-- status_effects.py `StatusEffect` (dataclass field order preserved). -/
structure StatusEffect where
  name : String
  amount : Int
  status_type : StatusType
  duration : Int := -1
  description : String := ""
deriving DecidableEq, Repr

/-- status_effects.py `StatusEffect.tick`: decrement a positive duration and
report whether the effect should be removed (duration reached 0 or less). -/
def StatusEffect.tick (e : StatusEffect) : StatusEffect × Bool :=
  if e.duration > 0 then
    ({ e with duration := e.duration - 1 }, decide (e.duration - 1 ≤ 0))
  else
    (e, false)

/-- status_effects.py `StatusManager`: the dict name -> StatusEffect, as an
association list in insertion order (keys are unique in a Python dict; the
operations below keep names unique, matching dict semantics). -/
structure StatusManager where
  effects : List StatusEffect
deriving DecidableEq, Repr

/-- Update the first entry with the given name (a Python dict holds at most
one entry per key, so this is in-place dict update). -/
def StatusManager.update_first (name : String) (f : StatusEffect → StatusEffect) :
    List StatusEffect → List StatusEffect
  | [] => []
  | e :: rest =>
    if e.name = name then f e :: rest
    else e :: StatusManager.update_first name f rest

/-- status_effects.py `StatusManager.get_status`: dict lookup by name. -/
def StatusManager.get_status (m : StatusManager) (name : String) : Option StatusEffect :=
  m.effects.find? (fun e => e.name == name)

/-- status_effects.py `StatusManager.add_status`: stack the amount on an
existing entry (shortening the duration when the incoming one is positive
and the existing one is negative or larger), else create a fresh entry
(appended, as a new dict key is). -/
def StatusManager.add_status (m : StatusManager) (name : String) (amount : Int)
    (duration : Int := -1) (status_type : StatusType := StatusType.NEUTRAL)
    (description : String := "") : StatusManager :=
  if (m.get_status name).isSome then
    { effects :=
        StatusManager.update_first name
          (fun e =>
            { e with
              amount := e.amount + amount
              duration :=
                if duration > 0 ∧ (e.duration < 0 ∨ duration < e.duration) then duration
                else e.duration })
          m.effects }
  else
    { effects := m.effects ++
        [{ name := name, amount := amount, status_type := status_type,
           duration := duration, description := description }] }

/-- status_effects.py `StatusManager.get_status_amount`: amount of the named
status, 0 when absent. -/
def StatusManager.get_status_amount (m : StatusManager) (name : String) : Int :=
  match m.get_status name with
  | some e => e.amount
  | none => 0

/-- status_effects.py `StatusManager.has_status`. -/
def StatusManager.has_status (m : StatusManager) (name : String) : Bool :=
  (m.get_status name).isSome

/-- status_effects.py `StatusManager.tick_all`: tick every effect, dropping
the ones whose tick reports expiry (order of survivors preserved, as in a
Python dict after deletions). -/
def StatusManager.tick_all (m : StatusManager) : StatusManager :=
  { effects :=
      m.effects.filterMap (fun e =>
        let (e', remove) := e.tick
        if remove then none else some e') }

-- status_effects.py `CommonStatuses` string constants.
namespace CommonStatuses

def STRENGTH : String := "strength"
def DEXTERITY : String := "dexterity"
def METALLICIZE : String := "metallicize"
def BARRICADE : String := "barricade"
def DEMON_FORM : String := "demon_form"
def VULNERABLE : String := "vulnerable"
def WEAK : String := "weak"
def FRAIL : String := "frail"
def POISON : String := "poison"
def BURN : String := "burn"

end CommonStatuses

/-- card.py `CardType`. -/
inductive CardType
  | ATTACK
  | SKILL
  | POWER
deriving DecidableEq, Repr

/-- card.py `CardRarity`. -/
inductive CardRarity
  | COMMON
  | UNCOMMON
  | RARE
deriving DecidableEq, Repr

/-- card.py `Card` (dataclass field order preserved; the status_effects dict
is an association list in insertion order). -/
structure Card where
  name : String
  card_type : CardType
  cost : Int
  description : String
  rarity : CardRarity := CardRarity.COMMON
  damage : Int := 0
  block : Int := 0
  energy_gain : Int := 0
  card_draw : Int := 0
  status_effects : List (String × Int) := []
  upgraded : Bool := false
  upgrade_damage : Int := 0
  upgrade_block : Int := 0
  upgrade_cost_reduction : Int := 0
deriving DecidableEq, Repr

/-- card.py `Card.get_cost`: effective cost, clamped at 0. -/
def Card.get_cost (c : Card) : Int :=
  max 0 (c.cost - (if c.upgraded then c.upgrade_cost_reduction else 0))

/-- card.py `Card.get_damage`. -/
def Card.get_damage (c : Card) : Int :=
  c.damage + (if c.upgraded then c.upgrade_damage else 0)

/-- card.py `Card.get_block`. -/
def Card.get_block (c : Card) : Int :=
  c.block + (if c.upgraded then c.upgrade_block else 0)

/-- character.py `Character`: the shared state of players and enemies. -/
structure Character where
  name : String
  max_hp : Int
  current_hp : Int
  block : Int
  status_manager : StatusManager
  energy : Int
  max_energy : Int
  damage_dealt_this_turn : Int
deriving DecidableEq, Repr

/-- character.py `Character.take_damage`: vulnerable multiplier (`int(amount
* 1.5)` is `tdiv (amount * 3) 2`), block absorption, HP floor at 0.  Returns
the actual damage together with the updated character. -/
def Character.take_damage (c : Character) (amount : Int) (ignore_block : Bool := false) :
    Int × Character :=
  let (actual_damage, c1) :=
    if ignore_block then (amount, c)
    else
      let vulnerable := c.status_manager.get_status_amount CommonStatuses.VULNERABLE
      let amount := if vulnerable > 0 then Int.tdiv (amount * 3) 2 else amount
      if c.block ≥ amount then (0, { c with block := c.block - amount })
      else (amount - c.block, { c with block := 0 })
  let hp := c1.current_hp - actual_damage
  let hp := if hp < 0 then 0 else hp
  (actual_damage, { c1 with current_hp := hp })

/-- character.py `Character.gain_block`: frail multiplier (`int(amount *
0.75)` is `tdiv (amount * 3) 4`) applied before the flat dexterity addend. -/
def Character.gain_block (c : Character) (amount : Int) : Character :=
  let frail := c.status_manager.get_status_amount CommonStatuses.FRAIL
  let amount := if frail > 0 then Int.tdiv (amount * 3) 4 else amount
  let dexterity := c.status_manager.get_status_amount CommonStatuses.DEXTERITY
  let amount := amount + dexterity
  { c with block := c.block + amount }

/-- character.py `Character.heal`. -/
def Character.heal (c : Character) (amount : Int) : Character :=
  { c with current_hp := min (c.current_hp + amount) c.max_hp }

/-- character.py `Character.is_alive`. -/
def Character.is_alive (c : Character) : Bool :=
  decide (c.current_hp > 0)

/-- character.py `Character.start_turn`: reset the per-turn damage counter
and apply poison (ignoring block), decrementing its amount by 1. -/
def Character.start_turn (c : Character) : Character :=
  let c := { c with damage_dealt_this_turn := 0 }
  let poison := c.status_manager.get_status_amount CommonStatuses.POISON
  if poison > 0 then
    let c := (c.take_damage poison true).2
    { c with status_manager := c.status_manager.add_status CommonStatuses.POISON (-1) }
  else c

/-- character.py `Character.end_turn`: burn self-damage, metallicize block,
demon form strength, tick all statuses, then clear block unless barricade. -/
def Character.end_turn (c : Character) : Character :=
  let burn := c.status_manager.get_status_amount CommonStatuses.BURN
  let c :=
    if burn > 0 then
      let c := (c.take_damage burn true).2
      { c with status_manager := c.status_manager.add_status CommonStatuses.BURN (-1) }
    else c
  let metallicize := c.status_manager.get_status_amount CommonStatuses.METALLICIZE
  let c := if metallicize > 0 then c.gain_block metallicize else c
  let demon_form := c.status_manager.get_status_amount CommonStatuses.DEMON_FORM
  let c :=
    if demon_form > 0 then
      { c with status_manager := c.status_manager.add_status CommonStatuses.STRENGTH 2 }
    else c
  let c := { c with status_manager := c.status_manager.tick_all }
  if !(c.status_manager.has_status CommonStatuses.BARRICADE) then { c with block := 0 }
  else c

/-- character.py `Character.get_damage_modifier`. -/
def Character.get_damage_modifier (c : Character) : Int :=
  c.status_manager.get_status_amount CommonStatuses.STRENGTH

/-- character.py `Character.apply_damage_modifier`: strength addend, weak
multiplier (`int(damage * 0.75)` is `tdiv (damage * 3) 4`), clamped at 0. -/
def Character.apply_damage_modifier (c : Character) (base_damage : Int) : Int :=
  let damage := base_damage + c.get_damage_modifier
  let weak := c.status_manager.get_status_amount CommonStatuses.WEAK
  let damage := if weak > 0 then Int.tdiv (damage * 3) 4 else damage
  max 0 damage

/-- deck.py `Deck`: four card zones.  The shuffle performed by
`random.shuffle` is supplied as an explicit function argument to the
operations that shuffle. -/
structure Deck where
  draw_pile : List Card
  discard_pile : List Card
  hand : List Card
  exhaust_pile : List Card
deriving DecidableEq, Repr

/-- The type of the injected shuffle (deck.py `Deck.shuffle` body,
`random.shuffle(self.draw_pile)`). -/
def ShuffleFn : Type := List Card → List Card

/-- deck.py `Deck.draw` loop body, recursing on the remaining iteration
count of `for _ in range(count)`: pop the front of the draw pile into the
hand; on an empty draw pile reshuffle the discard pile in first, or stop
when both piles are empty. -/
def Deck.draw_aux (shuffle : ShuffleFn) : Nat → Deck → List Card × Deck
  | 0, d => ([], d)
  | Nat.succ n, d =>
    match d.draw_pile with
    | c :: rest =>
      let (more, d') := Deck.draw_aux shuffle n
        { d with draw_pile := rest, hand := d.hand ++ [c] }
      (c :: more, d')
    | [] =>
      if d.discard_pile.isEmpty then ([], d)
      else
        match shuffle d.discard_pile with
        | [] =>
          -- only reachable for a shuffle that is not a permutation: the
          -- source re-checks `if self.draw_pile:` after the reshuffle and
          -- skips the pop when it is empty
          Deck.draw_aux shuffle n { d with draw_pile := [], discard_pile := [] }
        | c :: rest =>
          let (more, d') := Deck.draw_aux shuffle n
            { d with draw_pile := rest, discard_pile := [], hand := d.hand ++ [c] }
          (c :: more, d')

/-- deck.py `Deck.draw`: `count` is a Python int; `range(count)` iterates
`max count 0` times, hence `Int.toNat`. -/
def Deck.draw (d : Deck) (shuffle : ShuffleFn) (count : Int) : List Card × Deck :=
  Deck.draw_aux shuffle count.toNat d

/-- deck.py `Deck.discard_hand`. -/
def Deck.discard_hand (d : Deck) : Deck :=
  { d with discard_pile := d.discard_pile ++ d.hand, hand := [] }

/-- Python `list.remove`: delete the first element equal to `c` (`Card` is a
dataclass, so equality is structural). -/
def removeFirstCard (c : Card) : List Card → List Card
  | [] => []
  | x :: xs => if x = c then xs else x :: removeFirstCard c xs

/-- deck.py `Deck.discard_card`: move a card from hand to discard pile,
no-op when it is not in hand. -/
def Deck.discard_card (d : Deck) (card : Card) : Deck :=
  if card ∈ d.hand then
    { d with hand := removeFirstCard card d.hand,
             discard_pile := d.discard_pile ++ [card] }
  else d

/-- deck.py `Deck.get_hand_size`. -/
def Deck.get_hand_size (d : Deck) : Nat :=
  d.hand.length

/-- deck.py `Deck.get_total_cards`: draw + discard + hand (exhaust pile
excluded). -/
def Deck.get_total_cards (d : Deck) : Nat :=
  d.draw_pile.length + d.discard_pile.length + d.hand.length

/-- character.py `Player`: a Character plus a deck (Optional in the source:
it is `None` until `set_deck`). -/
structure Player extends Character where
  deck : Option Deck
  starting_hand_size : Int := 5
deriving DecidableEq, Repr

/-- character.py `Enemy`: a Character plus the declared intent. -/
structure Enemy extends Character where
  intent : String
  intent_damage : Int
  intent_block : Int
  intent_description : String
deriving DecidableEq, Repr

/-- character.py `Enemy.set_intent`. -/
def Enemy.set_intent (e : Enemy) (intent : String) (damage : Int := 0)
    (block : Int := 0) (description : String := "") : Enemy :=
  { e with intent := intent, intent_damage := damage, intent_block := block,
           intent_description := description }

/-- One entry of the `effects` list in the result dict built by
character.py `Player.play_card` and `Enemy.execute_intent`. -/
inductive Effect
  | damage (target : String) (amount : Int)
  | block_gain (amount : Int) (actual_block : Int)
  | energy (amount : Int)
  | draw (cards : List String)
  | status (target : String) (status : String) (amount : Int)
deriving DecidableEq, Repr

/-- The result dict of character.py `Player.play_card` (and of
combat.py `Combat.play_card`): `{'success': False, 'message': ...}` or
`{'success': True, 'effects': [...]}`. -/
inductive PlayResult
  | failure (message : String)
  | success (effects : List Effect)
deriving DecidableEq, Repr

/-- The `for status_name, amount in card.status_effects.items()` loop of
character.py `Player.play_card`: each grant goes to the target when one was
supplied, else to the player, with an effect entry appended per grant. -/
def apply_card_statuses :
    List (String × Int) → List Effect × Player × Option Character →
      List Effect × Player × Option Character
  | [], acc => acc
  | entry :: rest, (effs, pp, tt) =>
    match tt with
    | some t =>
      let t' := { t with status_manager :=
          t.status_manager.add_status entry.1 entry.2 }
      apply_card_statuses rest
        (effs ++ [Effect.status t.name entry.1 entry.2], pp, some t')
    | none =>
      let cc' := { pp.toCharacter with status_manager :=
          pp.toCharacter.status_manager.add_status entry.1 entry.2 }
      apply_card_statuses rest
        (effs ++ [Effect.status pp.name entry.1 entry.2],
         { pp with toCharacter := cc' }, none)

/-- character.py `Player.play_card`: validate (card in hand, enough
energy), spend energy, then apply damage, block, energy gain, card draw and
status grants in source order, finally discarding the played card.  Returns
the result dict, the updated player and the updated target (the target
Character is mutated in place in the source). -/
def Player.play_card (p : Player) (shuffle : ShuffleFn) (card : Card)
    (target : Option Character) : PlayResult × Player × Option Character :=
  match p.deck with
  | none => (PlayResult.failure "Card not in hand", p, target)
  | some d0 =>
    if card ∉ d0.hand then (PlayResult.failure "Card not in hand", p, target)
    else if p.energy < card.get_cost then
      (PlayResult.failure "Not enough energy", p, target)
    else
      let p1 := { p with energy := p.energy - card.get_cost }
      let damage := card.get_damage
      let block := card.get_block
      let (effects1, p2, target1) :=
        if damage > 0 then
          let actual_damage := p1.toCharacter.apply_damage_modifier damage
          match target with
          | some t =>
            let (damage_taken, t') := t.take_damage actual_damage
            ([Effect.damage t.name damage_taken],
             { p1 with damage_dealt_this_turn :=
                 p1.damage_dealt_this_turn + actual_damage },
             some t')
          | none => ([], p1, none)
        else ([], p1, target)
      let (effects2, p3) :=
        if block > 0 then
          let c3 := p2.toCharacter.gain_block block
          ([Effect.block_gain block c3.block], { p2 with toCharacter := c3 })
        else ([], p2)
      let (effects3, p4) :=
        if card.energy_gain > 0 then
          ([Effect.energy card.energy_gain],
           { p3 with energy := p3.energy + card.energy_gain })
        else ([], p3)
      let (effects4, d1) :=
        if card.card_draw > 0 then
          let (drawn, d') := d0.draw shuffle card.card_draw
          ([Effect.draw (drawn.map Card.name)], d')
        else ([], d0)
      let (effects5, p5, target2) :=
        apply_card_statuses card.status_effects (([] : List Effect), p4, target1)
      let d2 := d1.discard_card card
      let pFinal := { p5 with deck := some d2 }
      (PlayResult.success (effects1 ++ effects2 ++ effects3 ++ effects4 ++ effects5),
       pFinal, target2)

/-- character.py `Player.start_turn`: base-class start (poison), refill
energy to max, then draw 5 cards when a deck is set. -/
def Player.start_turn (p : Player) (shuffle : ShuffleFn) : Player :=
  let p := { p with toCharacter := p.toCharacter.start_turn }
  let p := { p with energy := p.max_energy }
  match p.deck with
  | some d => { p with deck := some (d.draw shuffle 5).2 }
  | none => p

/-- character.py `Player.end_turn`: base-class end (burn, metallicize,
ticks, block reset), then discard the hand when a deck is set. -/
def Player.end_turn (p : Player) : Player :=
  let p := { p with toCharacter := p.toCharacter.end_turn }
  match p.deck with
  | some d => { p with deck := some d.discard_hand }
  | none => p

/-- character.py `Enemy.start_turn` (calls the base class only). -/
def Enemy.start_turn (e : Enemy) : Enemy :=
  { e with toCharacter := e.toCharacter.start_turn }

/-- character.py `Enemy.end_turn` (calls the base class only). -/
def Enemy.end_turn (e : Enemy) : Enemy :=
  { e with toCharacter := e.toCharacter.end_turn }

/-- character.py `Enemy.execute_intent`: perform the declared intent against
the target (the player), returning the updated enemy, the updated target
and the effects list of the result dict.  An unrecognized intent string
does nothing. -/
def Enemy.execute_intent (e : Enemy) (target : Character) :
    Enemy × Character × List Effect :=
  if e.intent = "attack" then
    let damage := e.toCharacter.apply_damage_modifier e.intent_damage
    let (actual_damage, t') := target.take_damage damage
    (e, t', [Effect.damage target.name actual_damage])
  else if e.intent = "defend" then
    let c' := e.toCharacter.gain_block e.intent_block
    ({ e with toCharacter := c' }, target,
     [Effect.block_gain e.intent_block c'.block])
  else if e.intent = "buff" then
    let c' := { e.toCharacter with status_manager :=
        e.toCharacter.status_manager.add_status CommonStatuses.STRENGTH e.intent_damage }
    ({ e with toCharacter := c' }, target,
     [Effect.status e.name CommonStatuses.STRENGTH e.intent_damage])
  else if e.intent = "debuff" then
    let t' := { target with status_manager :=
        target.status_manager.add_status CommonStatuses.VULNERABLE e.intent_damage }
    (e, t', [Effect.status target.name CommonStatuses.VULNERABLE e.intent_damage])
  else (e, target, [])

/-- combat.py `CombatState`. -/
inductive CombatState
  | WAITING_FOR_INPUT
  | PLAYER_TURN
  | ENEMY_TURN
  | VICTORY
  | DEFEAT
  | ENDED
deriving DecidableEq, Repr

/-- combat.py `Combat`: the combat state.  `turn_number` starts at 0 and is
only ever incremented, hence `Nat`.  `combat_log` is the `_log` list. -/
structure Combat where
  player : Player
  enemies : List Enemy
  state : CombatState
  turn_number : Nat
  combat_log : List String
deriving DecidableEq, Repr

/-- combat.py `Combat._determine_enemy_intent`: the scripted AI.  The HP
check `enemy.get_hp_percentage() < 0.5` is float arithmetic in the source;
for game-scale integers it is exactly `2 * current_hp < max_hp` (with
`get_hp_percentage` returning 0.0 when `max_hp <= 0`). -/
def Combat.determine_enemy_intent (turn_number : Nat) (e : Enemy) : Enemy :=
  let hp_percent_low : Bool :=
    if e.max_hp > 0 then decide (2 * e.current_hp < e.max_hp) else true
  if turn_number % 3 = 0 ∧ hp_percent_low then
    let block_amount : Int := 8 + (turn_number / 3 : Nat)
    e.set_intent "defend" 0 block_amount
      ("Preparing to defend (will gain " ++ toString block_amount ++ " block)")
  else if turn_number % 4 = 0 then
    let strength_gain : Int := 2
    e.set_intent "buff" strength_gain 0
      ("Gathering strength (will gain " ++ toString strength_gain ++ " Strength)")
  else
    let base_damage : Int := 6 + (turn_number / 2 : Nat)
    e.set_intent "attack" base_damage 0
      ("Attacking (will deal " ++ toString base_damage ++ " damage)")

/-- The log line combat.py `Combat._start_enemy_turns` prints for one effect
of an enemy action (the `elif` chain logs damage, block and status effects
only). -/
def enemy_effect_line (enemy_name : String) : Effect → Option String
  | Effect.damage target amount =>
    some ("  → " ++ target ++ " takes " ++ toString amount ++ " damage!")
  | Effect.block_gain amount _ =>
    some ("  → " ++ enemy_name ++ " gains " ++ toString amount ++ " block")
  | Effect.status target st amount =>
    some ("  → " ++ target ++ " gains " ++ toString amount ++ " " ++ st)
  | _ => none

/-- The body of the `for enemy in self.enemies` loop of combat.py
`Combat._start_enemy_turns` for one living enemy: start its turn, determine
its intent, execute it against the player, end its turn.  Returns the
updated enemy and player and the log lines produced. -/
def Combat.enemy_turn (turn_number : Nat) (e : Enemy) (p : Player) :
    Enemy × Player × List String :=
  let e := e.start_turn
  let e := Combat.determine_enemy_intent turn_number e
  let intent_log :=
    if e.intent_description ≠ "" then
      ["\n" ++ e.name ++ "'s turn: " ++ e.intent_description]
    else []
  let (e, tchar, effects) := e.execute_intent p.toCharacter
  let p := { p with toCharacter := tchar }
  let effect_log := effects.filterMap (enemy_effect_line e.name)
  let e := e.end_turn
  (e, p, intent_log ++ effect_log)

/-- The `for enemy in self.enemies` loop of combat.py
`Combat._start_enemy_turns`: skip dead enemies; after each living enemy
acts, stop with the defeat flag when the player is no longer alive (the
"=== DEFEAT! ===" line is logged at the stop).  Returns the updated enemy
list, player, log, and whether defeat was declared. -/
def Combat.enemy_loop (turn_number : Nat) :
    List Enemy → Player → List String → List Enemy × Player × List String × Bool
  | [], p, log => ([], p, log, false)
  | e :: rest, p, log =>
    if !e.is_alive then
      let (rest', p', log', defeated) := Combat.enemy_loop turn_number rest p log
      (e :: rest', p', log', defeated)
    else
      let (e', p', entries) := Combat.enemy_turn turn_number e p
      let log' := log ++ entries
      if !p'.is_alive then
        (e' :: rest, p', log' ++ ["\n=== DEFEAT! ==="], true)
      else
        let (rest', p'', log'', defeated) := Combat.enemy_loop turn_number rest p' log'
        (e' :: rest', p'', log'', defeated)

/-- The status line combat.py `Combat.start_player_turn` logs for the
player. -/
def player_status_line (p : Player) : String :=
  "Player HP: " ++ toString p.current_hp ++ "/" ++ toString p.max_hp ++
  ", Block: " ++ toString p.block ++ ", Energy: " ++ toString p.energy ++
  "/" ++ toString p.max_energy

/-- The per-enemy status lines combat.py `Combat.start_player_turn` logs
(HP line for each living enemy, plus its intent when the description is
non-empty). -/
def enemy_status_lines (es : List Enemy) : List String :=
  (es.map (fun e =>
    if e.is_alive then
      [e.name ++ " HP: " ++ toString e.current_hp ++ "/" ++ toString e.max_hp ++
       ", Block: " ++ toString e.block] ++
      (if e.intent_description ≠ "" then
        [e.name ++ " intent: " ++ e.intent_description]
      else [])
    else [])).flatten

/-- combat.py `Combat.start_player_turn`: increment the turn counter, enter
PLAYER_TURN, run the player's start-of-turn hook (which draws), and log the
status lines.  The source dereferences `self.player.deck` for the hand-size
line, raising `AttributeError` when no deck is set; that crash is the
`none` result. -/
def Combat.start_player_turn (c : Combat) (shuffle : ShuffleFn) : Option Combat :=
  let turn_number := c.turn_number + 1
  let log := c.combat_log ++
    ["\n=== Turn " ++ toString turn_number ++ " ===", "Player's turn begins."]
  let p := c.player.start_turn shuffle
  match p.deck with
  | none => none
  | some d =>
    let log := log ++ [player_status_line p,
      "Hand size: " ++ toString d.get_hand_size] ++ enemy_status_lines c.enemies
    some { c with turn_number := turn_number, state := CombatState.PLAYER_TURN,
                  player := p, combat_log := log }

/-- combat.py `Combat._start_enemy_turns`: enter ENEMY_TURN, run the enemy
loop; on defeat stop in the DEFEAT state, otherwise recurse into
`start_player_turn`. -/
def Combat.start_enemy_turns (c : Combat) (shuffle : ShuffleFn) : Option Combat :=
  let c := { c with state := CombatState.ENEMY_TURN }
  let (enemies', p', log', defeated) :=
    Combat.enemy_loop c.turn_number c.enemies c.player c.combat_log
  if defeated then
    some { c with enemies := enemies', player := p', combat_log := log',
                  state := CombatState.DEFEAT }
  else
    Combat.start_player_turn
      { c with enemies := enemies', player := p', combat_log := log' } shuffle

/-- combat.py `Combat.end_player_turn`: a no-op outside PLAYER_TURN; end
the player's turn, declare victory when every enemy is dead, otherwise run
the enemy turns. -/
def Combat.end_player_turn (c : Combat) (shuffle : ShuffleFn) : Option Combat :=
  if c.state ≠ CombatState.PLAYER_TURN then some c
  else
    let p := c.player.end_turn
    let log := c.combat_log ++ ["\nPlayer's turn ends."]
    if c.enemies.all (fun e => !e.is_alive) then
      some { c with player := p, combat_log := log ++ ["\n=== VICTORY! ==="],
                    state := CombatState.VICTORY }
    else
      Combat.start_enemy_turns { c with player := p, combat_log := log } shuffle

/-- Python list indexing `lst[i]` for a possibly negative `i`: a negative
index counts from the end; an index below `-len(lst)` raises `IndexError`
(the `none` result). -/
def python_index (length : Nat) (i : Int) : Option Nat :=
  let j := if i < 0 then i + length else i
  if 0 ≤ j ∧ j < (length : Int) then some j.toNat else none

/-- The log line combat.py `Combat.play_card` prints for one effect of a
successful card play. -/
def player_effect_line : Effect → String
  | Effect.damage target amount =>
    "  → " ++ target ++ " takes " ++ toString amount ++ " damage!"
  | Effect.block_gain amount actual_block =>
    "  → Player gains " ++ toString amount ++ " block (total: " ++
      toString actual_block ++ ")"
  | Effect.energy amount => "  → Player gains " ++ toString amount ++ " energy"
  | Effect.draw cards =>
    "  → Player draws " ++ toString cards.length ++ " card(s)"
  | Effect.status target st amount =>
    "  → " ++ target ++ " gains " ++ toString amount ++ " " ++ st

/-- combat.py `Combat.play_card`: validate the phase and target, then
delegate to `Player.play_card` and log the outcome.  The bounds check
`target_index >= len(self.enemies)` does not reject negative indices: a
negative index within `-len..-1` silently addresses an enemy from the end
of the list, and one below `-len` raises `IndexError` (the `none`
result). -/
def Combat.play_card (c : Combat) (shuffle : ShuffleFn) (card : Card)
    (target_index : Int := 0) : Option (PlayResult × Combat) :=
  if c.state ≠ CombatState.PLAYER_TURN then
    some (PlayResult.failure "Not player turn", c)
  else if c.enemies.isEmpty ∨ (c.enemies.length : Int) ≤ target_index then
    some (PlayResult.failure "Invalid target", c)
  else
    match python_index c.enemies.length target_index with
    | none => none
    | some idx =>
      if hidx : idx < c.enemies.length then
        let target := c.enemies[idx]
        if !target.is_alive then some (PlayResult.failure "Target is dead", c)
        else
          let (result, p', tchar') :=
            c.player.play_card shuffle card (some target.toCharacter)
          let target' := { target with toCharacter := tchar'.getD target.toCharacter }
          let c' := { c with player := p', enemies := c.enemies.set idx target' }
          match result with
          | PlayResult.failure _ => some (result, c')
          | PlayResult.success effects =>
            let log := c'.combat_log ++ ["Player plays " ++ card.name ++ "!"] ++
              effects.map player_effect_line ++
              (if !target'.is_alive then [target'.name ++ " is defeated!"] else [])
            some (result, { c' with combat_log := log })
      else none

/-- One call of the `Character` turn and damage surface, for stating the
HP invariant (claim C2). -/
inductive CharOp
  | take_damage_op (amount : Int) (ignore_block : Bool)
  | gain_block_op (amount : Int)
  | heal_op (amount : Int)
  | start_turn_op
  | end_turn_op
deriving DecidableEq, Repr

/-- Apply one `CharOp` to a character (the damage return value of
`take_damage` is discarded). -/
def CharOp.apply (c : Character) : CharOp → Character
  | CharOp.take_damage_op amount ignore_block => (c.take_damage amount ignore_block).2
  | CharOp.gain_block_op amount => c.gain_block amount
  | CharOp.heal_op amount => c.heal amount
  | CharOp.start_turn_op => c.start_turn
  | CharOp.end_turn_op => c.end_turn

/-- Damage and heal amounts are nonnegative quantities (every call site in
the source passes a nonnegative amount: card damage and enemy attacks go
through `apply_damage_modifier`, which clamps at 0, and poison and burn
self-damage are guarded by a positivity test). -/
def CharOp.valid : CharOp → Prop
  | CharOp.take_damage_op amount _ => 0 ≤ amount
  | CharOp.heal_op amount => 0 ≤ amount
  | _ => True

instance : DecidablePred CharOp.valid := by
  intro op
  cases op <;> simp only [CharOp.valid] <;> infer_instance

/-- One call of the `Deck` surface that claim C5 quantifies over
(`draw` / `discard_hand` / `discard_card`). -/
inductive DeckOp
  | draw_op (count : Int)
  | discard_hand_op
  | discard_card_op (card : Card)
deriving DecidableEq, Repr

/-- Apply one `DeckOp` to a deck (the drawn-cards return value of `draw` is
discarded). -/
def DeckOp.apply (shuffle : ShuffleFn) (d : Deck) : DeckOp → Deck
  | DeckOp.draw_op count => (d.draw shuffle count).2
  | DeckOp.discard_hand_op => d.discard_hand
  | DeckOp.discard_card_op card => d.discard_card card

/-! ## Helper lemmas -/

theorem find_update_first (name : String) (f : StatusEffect → StatusEffect)
    (hf : ∀ e, (f e).name = e.name) :
    ∀ (l : List StatusEffect) (e : StatusEffect),
      l.find? (fun x => x.name == name) = some e →
      (StatusManager.update_first name f l).find? (fun x => x.name == name) =
        some (f e) := by
  intro l
  induction l with
  | nil => intro e h; simp at h
  | cons x xs ih =>
    intro e h
    by_cases hx : x.name = name
    · rw [List.find?_cons_of_pos _ (by simp [hx])] at h
      cases h
      simp only [StatusManager.update_first, if_pos hx]
      exact List.find?_cons_of_pos _ (by simp [hf, hx])
    · rw [List.find?_cons_of_neg _ (by simp [hx])] at h
      simp only [StatusManager.update_first, if_neg hx]
      rw [List.find?_cons_of_neg _ (by simp [hx])]
      exact ih e h

theorem find_append_of_none {l l' : List StatusEffect} {p : StatusEffect → Bool}
    (h : l.find? p = none) : (l ++ l').find? p = l'.find? p := by
  induction l with
  | nil => simp
  | cons x xs ih =>
    by_cases hx : p x
    · rw [List.find?_cons_of_pos _ hx] at h; cases h
    · rw [List.find?_cons_of_neg _ hx] at h
      simpa [List.find?_cons_of_neg _ hx] using ih h

/-! ## C1 -/

/-- A character with Vulnerable 1 and block 1: the vulnerable multiplier
makes the returned actual damage exceed the requested amount. -/
def vulnChar : Character :=
  { name := "Cultist", max_hp := 100, current_hp := 100, block := 1,
    status_manager := ⟨[{ name := "vulnerable", amount := 1,
                          status_type := StatusType.DEBUFF }]⟩,
    energy := 0, max_energy := 3, damage_dealt_this_turn := 0 }

/-- C1 counterexample: with block 1 > 0 and `ignore_block = false`, a
request of 10 damage against a Vulnerable character returns an actual
damage of int(10 * 1.5) - 1 = 14 > 10, so the claimed bound
`actualDamage ≤ requestedAmount` fails. -/
theorem take_damage_monotonic_counterexample :
    0 < vulnChar.block ∧ (vulnChar.take_damage 10 false).1 = 14 ∧
    ¬ (vulnChar.take_damage 10 false).1 ≤ 10 := by decide

/-- C1 (amended): for a nonnegative requested amount, when block > 0
pre-call, `ignore_block = false` and the target is not Vulnerable, the
returned actual damage is at most the requested amount; and with
`ignore_block = true` the returned actual damage equals the requested
amount exactly (the HP floor at 0 does not affect the return value). -/
theorem take_damage_monotonic (c : Character) (amount : Int) :
    (0 ≤ amount → 0 < c.block →
      c.status_manager.get_status_amount CommonStatuses.VULNERABLE ≤ 0 →
      (c.take_damage amount false).1 ≤ amount) ∧
    (c.take_damage amount true).1 = amount := by
  constructor
  · intro hamt hblock hvuln
    have hv : ¬ c.status_manager.get_status_amount CommonStatuses.VULNERABLE > 0 := by
      omega
    simp only [Character.take_damage, if_neg hv, Bool.false_eq_true, if_false]
    split <;> simp <;> omega
  · rfl

/-- Concrete instance of C1 (amended): block 1, no Vulnerable, requested
amount 10. -/
def plainBlockChar : Character :=
  { name := "Guard", max_hp := 50, current_hp := 50, block := 1,
    status_manager := ⟨[]⟩, energy := 0, max_energy := 3,
    damage_dealt_this_turn := 0 }

theorem take_damage_monotonic_witness :
    (plainBlockChar.take_damage 10 false).1 ≤ 10 ∧
    (plainBlockChar.take_damage 10 true).1 = 10 :=
  ⟨(take_damage_monotonic plainBlockChar 10).1 (by decide) (by decide) (by decide),
   (take_damage_monotonic plainBlockChar 10).2⟩

/-! ## C7 -/

/-- C7: `add_status` on an existing entry stacks the amount additively and
sets the duration to the incoming one exactly when the incoming duration is
positive and the existing one was indefinite (negative) or larger — never
lengthening a finite duration; on an absent name it creates a fresh entry
with exactly the given amount and duration. -/
theorem add_status_stacks (m : StatusManager) (name : String) (e : StatusEffect)
    (amount duration : Int) (status_type : StatusType) (description : String) :
    (m.get_status name = some e →
      (m.add_status name amount duration status_type description).get_status name =
        some { e with
               amount := e.amount + amount,
               duration :=
                 if duration > 0 ∧ (e.duration < 0 ∨ duration < e.duration)
                 then duration else e.duration }) ∧
    (m.get_status name = none →
      (m.add_status name amount duration status_type description).get_status name =
        some { name := name, amount := amount, status_type := status_type,
               duration := duration, description := description }) := by
  constructor
  · intro h
    simp only [StatusManager.add_status, h, Option.isSome_some, if_pos]
    exact find_update_first name
      (fun x =>
        { x with
          amount := x.amount + amount,
          duration :=
            if duration > 0 ∧ (x.duration < 0 ∨ duration < x.duration)
            then duration else x.duration })
      (fun _ => rfl) m.effects e h
  · intro h
    simp only [StatusManager.add_status, h, Option.isSome_none, Bool.false_eq_true,
      if_false]
    show (m.effects ++ [_]).find? _ = _
    rw [find_append_of_none h]
    simp [List.find?]

/-- Concrete instance of C7: an existing ("poison", amount 2, duration 3)
entry; adding 3 with duration 5 yields amount 5 and keeps duration 3. -/
def stackedManager : StatusManager :=
  ⟨[{ name := "poison", amount := 2, status_type := StatusType.NEUTRAL,
      duration := 3 }]⟩

theorem add_status_stacks_witness :
    (stackedManager.add_status "poison" 3 5 StatusType.NEUTRAL "").get_status
        "poison" =
      some { name := "poison", amount := 5, status_type := StatusType.NEUTRAL,
             duration := 3, description := "" } :=
  ((add_status_stacks stackedManager "poison"
      { name := "poison", amount := 2, status_type := StatusType.NEUTRAL,
        duration := 3 } 3 5 StatusType.NEUTRAL "").1 (by decide)).trans (by decide)

/-! ## C8 -/

/-- C8: `gain_block` multiplies the base amount by 0.75 (truncating) when
Frail is positive, before adding the Dexterity amount as a flat addend;
with Frail ≤ 0 the gain is the amount plus the Dexterity addend. -/
theorem gain_block_frail_dexterity (c : Character) (amount : Int) :
    (0 < c.status_manager.get_status_amount CommonStatuses.FRAIL →
      (c.gain_block amount).block =
        c.block + (Int.tdiv (amount * 3) 4 +
          c.status_manager.get_status_amount CommonStatuses.DEXTERITY)) ∧
    (c.status_manager.get_status_amount CommonStatuses.FRAIL ≤ 0 →
      (c.gain_block amount).block =
        c.block + (amount +
          c.status_manager.get_status_amount CommonStatuses.DEXTERITY)) := by
  constructor
  · intro h
    simp only [Character.gain_block, if_pos h]
  · intro h
    have h' : ¬ c.status_manager.get_status_amount CommonStatuses.FRAIL > 0 := by
      omega
    simp only [Character.gain_block, if_neg h']

/-- A character with Frail 1 active and no Dexterity. -/
def frailChar : Character :=
  { name := "Player", max_hp := 80, current_hp := 80, block := 0,
    status_manager := ⟨[{ name := "frail", amount := 1,
                          status_type := StatusType.DEBUFF }]⟩,
    energy := 3, max_energy := 3, damage_dealt_this_turn := 0 }

/-- Concrete instance of C8: Frail active, Dexterity 0, a block-5 gain
(the "Defend" card) yields int(5 * 0.75) = 3 block. -/
theorem gain_block_frail_dexterity_witness :
    0 < frailChar.status_manager.get_status_amount CommonStatuses.FRAIL ∧
    (frailChar.gain_block 5).block = 3 :=
  ⟨by decide,
   ((gain_block_frail_dexterity frailChar 5).1 (by decide)).trans (by decide)⟩

/-! ## C2 -/

/-- Characterization of `take_damage` as a record update (the source
mutates `block` and `current_hp` in place). -/
theorem take_damage_eq (c : Character) (amount : Int) (ib : Bool) :
    c.take_damage amount ib =
      (let actual :=
        if ib then amount
        else
          let amt :=
            if c.status_manager.get_status_amount CommonStatuses.VULNERABLE > 0
            then Int.tdiv (amount * 3) 2 else amount
          if c.block ≥ amt then 0 else amt - c.block
      let blk :=
        if ib then c.block
        else
          let amt :=
            if c.status_manager.get_status_amount CommonStatuses.VULNERABLE > 0
            then Int.tdiv (amount * 3) 2 else amount
          if c.block ≥ amt then c.block - amt else 0
      (actual,
       { c with
         block := blk,
         current_hp :=
           if c.current_hp - actual < 0 then 0 else c.current_hp - actual })) := by
  cases ib <;> simp only [Character.take_damage] <;> split_ifs <;> rfl

/-- `take_damage` with a nonnegative amount returns a nonnegative actual
damage, leaves `max_hp` unchanged, and leaves `current_hp` between 0 and
its previous value (or 0 when it was negative). -/
theorem take_damage_invariants (c : Character) (amount : Int) (ib : Bool)
    (hamt : 0 ≤ amount) :
    0 ≤ (c.take_damage amount ib).1 ∧
    (c.take_damage amount ib).2.max_hp = c.max_hp ∧
    0 ≤ (c.take_damage amount ib).2.current_hp ∧
    (c.take_damage amount ib).2.current_hp ≤ max c.current_hp 0 := by
  have h3 : (0:Int) ≤ Int.tdiv (amount * 3) 2 :=
    Int.tdiv_nonneg (by omega) (by omega)
  rw [take_damage_eq]
  dsimp only
  split_ifs <;> simp <;> omega

/-- The HP interval invariant of claim C2. -/
def hp_in_range (c : Character) : Prop :=
  0 ≤ c.current_hp ∧ c.current_hp ≤ c.max_hp

instance (c : Character) : Decidable (hp_in_range c) := by
  unfold hp_in_range; infer_instance


/-- `start_turn` keeps `current_hp` within `[0, max_hp]` and does not
change `max_hp` (the only HP write is the poison `take_damage`, whose
amount is checked positive). -/
theorem start_turn_preserves_hp (c : Character) (h0 : 0 ≤ c.current_hp)
    (h1 : c.current_hp ≤ c.max_hp) :
    (0 ≤ c.start_turn.current_hp ∧ c.start_turn.current_hp ≤ c.max_hp) ∧
    c.start_turn.max_hp = c.max_hp := by
  simp only [Character.start_turn]
  split_ifs with hp0
  · obtain ⟨_, hmax, hlo, hhi⟩ :=
      take_damage_invariants { c with damage_dealt_this_turn := 0 }
        (c.status_manager.get_status_amount CommonStatuses.POISON)
        true (by omega)
    dsimp only at hmax hlo hhi ⊢
    refine ⟨⟨hlo, ?_⟩, hmax⟩
    omega
  · exact ⟨⟨h0, h1⟩, rfl⟩

theorem gain_block_hp (c : Character) (a : Int) :
    (c.gain_block a).current_hp = c.current_hp := rfl

theorem gain_block_max (c : Character) (a : Int) :
    (c.gain_block a).max_hp = c.max_hp := rfl

/-- `end_turn` keeps `current_hp` within `[0, max_hp]` and does not change
`max_hp` (the only HP write is the burn `take_damage`, whose amount is
checked positive). -/
theorem end_turn_preserves_hp (c : Character) (h0 : 0 ≤ c.current_hp)
    (h1 : c.current_hp ≤ c.max_hp) :
    (0 ≤ c.end_turn.current_hp ∧ c.end_turn.current_hp ≤ c.max_hp) ∧
    c.end_turn.max_hp = c.max_hp := by
  simp only [Character.end_turn]
  by_cases hb : c.status_manager.get_status_amount CommonStatuses.BURN > 0
  · obtain ⟨_, hmax, hlo, hhi⟩ :=
      take_damage_invariants c
        (c.status_manager.get_status_amount CommonStatuses.BURN) true (by omega)
    simp only [if_pos hb]
    split_ifs <;> refine ⟨⟨?_, ?_⟩, ?_⟩ <;>
      simp only [gain_block_hp, gain_block_max] <;> omega
  · simp only [if_neg hb]
    split_ifs <;> refine ⟨⟨?_, ?_⟩, ?_⟩ <;>
      simp only [gain_block_hp, gain_block_max] <;> omega

/-- One valid `Character` operation keeps `current_hp` within `[0, max_hp]`
and leaves `max_hp` unchanged. -/
theorem char_op_preserves_hp (c : Character) (op : CharOp) (hv : op.valid)
    (h : hp_in_range c) :
    hp_in_range (op.apply c) ∧ (op.apply c).max_hp = c.max_hp := by
  obtain ⟨h0, h1⟩ := h
  cases op with
  | take_damage_op a ib =>
    simp only [CharOp.valid] at hv
    obtain ⟨_, hmax, hlo, hhi⟩ := take_damage_invariants c a ib hv
    simp only [CharOp.apply]
    exact ⟨⟨hlo, by omega⟩, hmax⟩
  | gain_block_op a =>
    exact ⟨⟨h0, h1⟩, rfl⟩
  | heal_op a =>
    simp only [CharOp.valid] at hv
    refine ⟨⟨?_, ?_⟩, rfl⟩ <;>
      dsimp only [CharOp.apply, Character.heal] <;> omega
  | start_turn_op =>
    obtain ⟨⟨hlo, hhi⟩, hmax⟩ := start_turn_preserves_hp c h0 h1
    simp only [CharOp.apply]
    exact ⟨⟨hlo, by omega⟩, hmax⟩
  | end_turn_op =>
    obtain ⟨⟨hlo, hhi⟩, hmax⟩ := end_turn_preserves_hp c h0 h1
    simp only [CharOp.apply]
    exact ⟨⟨hlo, by omega⟩, hmax⟩

theorem char_ops_foldl_preserves_hp (ops : List CharOp) :
    ∀ c : Character, hp_in_range c → (∀ op ∈ ops, op.valid) →
      hp_in_range (ops.foldl CharOp.apply c) := by
  induction ops with
  | nil => intro c h _; exact h
  | cons op rest ih =>
    intro c h hv
    exact ih (op.apply c)
      (char_op_preserves_hp c op (hv op (List.mem_cons_self op rest)) h).1
      (fun o ho => hv o (List.mem_cons_of_mem op ho))

/-- C2: for every character whose `current_hp` lies in `[0, max_hp]`, any
single valid operation of the public `Character` surface (take_damage with
either ignore_block value, gain_block, heal, start_turn, end_turn) keeps
`current_hp` in `[0, max_hp]`, and hence so does any sequence of such
operations (validity: damage and heal amounts are nonnegative, as at every
call site in the source). -/
theorem current_hp_stays_in_range (c : Character) (h : hp_in_range c) :
    (∀ op : CharOp, op.valid → hp_in_range (op.apply c)) ∧
    (∀ ops : List CharOp, (∀ op ∈ ops, op.valid) →
      hp_in_range (ops.foldl CharOp.apply c)) :=
  ⟨fun op hv => (char_op_preserves_hp c op hv ⟨h.1, h.2⟩).1,
   fun ops hv => char_ops_foldl_preserves_hp ops c h hv⟩

/-- A character with poison and burn, for exercising the turn hooks. -/
def dotChar : Character :=
  { name := "Hero", max_hp := 30, current_hp := 10, block := 2,
    status_manager := ⟨[{ name := "poison", amount := 3,
                          status_type := StatusType.DEBUFF },
                        { name := "burn", amount := 2,
                          status_type := StatusType.DEBUFF }]⟩,
    energy := 0, max_energy := 3, damage_dealt_this_turn := 0 }

def dotOps : List CharOp :=
  [CharOp.take_damage_op 7 false, CharOp.heal_op 3, CharOp.start_turn_op,
   CharOp.gain_block_op 5, CharOp.end_turn_op, CharOp.take_damage_op 4 true,
   CharOp.heal_op 100]

theorem current_hp_stays_in_range_witness :
    hp_in_range (dotOps.foldl CharOp.apply dotChar) :=
  (current_hp_stays_in_range dotChar (by decide)).2 dotOps (by decide)

/-! ## C5 and C6: deck lemmas -/

/-- The drawn cards of `draw_aux` number exactly `min n (draw + discard)`,
they are appended to the hand, the draw + discard total shrinks by exactly
that number, and the exhaust pile is untouched — for any shuffle that is a
permutation. -/
theorem draw_aux_spec (shuffle : ShuffleFn)
    (hs : ∀ l, List.Perm (shuffle l) l) :
    ∀ (n : Nat) (d : Deck),
      ((Deck.draw_aux shuffle n d).1).length =
        min n (d.draw_pile.length + d.discard_pile.length) ∧
      (Deck.draw_aux shuffle n d).2.hand = d.hand ++ (Deck.draw_aux shuffle n d).1 ∧
      (Deck.draw_aux shuffle n d).2.draw_pile.length +
        (Deck.draw_aux shuffle n d).2.discard_pile.length +
        ((Deck.draw_aux shuffle n d).1).length =
        d.draw_pile.length + d.discard_pile.length ∧
      (Deck.draw_aux shuffle n d).2.exhaust_pile = d.exhaust_pile := by
  intro n
  induction n with
  | zero =>
    intro d
    simp [Deck.draw_aux]
  | succ n ih =>
    intro d
    obtain ⟨dp, disc, hand, ex⟩ := d
    cases dp with
    | cons c rest =>
      rcases hA : Deck.draw_aux shuffle n ⟨rest, disc, hand ++ [c], ex⟩ with ⟨more, d'⟩
      have hih := ih ⟨rest, disc, hand ++ [c], ex⟩
      rw [hA] at hih
      obtain ⟨ih1, ih2, ih3, ih4⟩ := hih
      simp only [Deck.draw_aux, hA]
      dsimp only at ih1 ih2 ih3 ih4 ⊢
      refine ⟨?_, ?_, ?_, ?_⟩
      · simp only [List.length_cons, ih1, List.length_cons]
        omega
      · rw [ih2]
        simp
      · simp only [List.length_cons]
        omega
      · exact ih4
    | nil =>
      cases disc with
      | nil => simp [Deck.draw_aux]
      | cons e ds =>
        cases hsh : shuffle (e :: ds) with
        | nil =>
          exfalso
          have hl := (hs (e :: ds)).length_eq
          rw [hsh] at hl
          simp at hl
        | cons c rest =>
          rcases hA : Deck.draw_aux shuffle n ⟨rest, [], hand ++ [c], ex⟩ with ⟨more, d'⟩
          have hih := ih ⟨rest, [], hand ++ [c], ex⟩
          rw [hA] at hih
          obtain ⟨ih1, ih2, ih3, ih4⟩ := hih
          have hlen : rest.length = ds.length := by
            have hl := (hs (e :: ds)).length_eq
            rw [hsh] at hl
            simpa using hl
          simp only [Deck.draw_aux, List.isEmpty_cons, Bool.false_eq_true, if_false, hsh, hA]
          dsimp only at ih1 ih2 ih3 ih4 ⊢
          refine ⟨?_, ?_, ?_, ?_⟩
          · simp only [List.length_cons, ih1]
            omega
          · rw [ih2]
            simp
          · simp only [List.length_cons]
            omega
          · exact ih4

/-- Drawing from a deck whose draw and discard piles are both empty stops
immediately, whatever the requested count. -/
theorem draw_aux_both_empty (shuffle : ShuffleFn) (n : Nat)
    (hand ex : List Card) :
    Deck.draw_aux shuffle n ⟨[], [], hand, ex⟩ = ([], ⟨[], [], hand, ex⟩) := by
  cases n <;> simp [Deck.draw_aux]

/-- C6: `draw(count)` moves exactly `min(count, drawPile + discardPile)`
cards into the hand and returns them (reshuffling the discard pile in when
the draw pile empties, for any permutation shuffle); the exhaust pile is
untouched; and when both piles are empty it returns an empty list with the
deck unchanged. -/
theorem draw_moves_min_count (shuffle : ShuffleFn)
    (hs : ∀ l, List.Perm (shuffle l) l) (count : Int) (_hc : 0 ≤ count) (d : Deck) :
    ((d.draw shuffle count).1).length =
      min count.toNat (d.draw_pile.length + d.discard_pile.length) ∧
    (d.draw shuffle count).2.hand = d.hand ++ (d.draw shuffle count).1 ∧
    (d.draw shuffle count).2.exhaust_pile = d.exhaust_pile ∧
    (d.draw_pile = [] → d.discard_pile = [] →
      (d.draw shuffle count).1 = [] ∧ (d.draw shuffle count).2 = d) := by
  obtain ⟨h1, h2, _, h4⟩ := draw_aux_spec shuffle hs count.toNat d
  refine ⟨h1, h2, h4, ?_⟩
  intro hdp hdisc
  obtain ⟨dp, disc, hand, ex⟩ := d
  cases hdp
  cases hdisc
  rw [Deck.draw, draw_aux_both_empty]
  exact ⟨rfl, rfl⟩

def strikeCard : Card :=
  { name := "Strike", card_type := CardType.ATTACK, cost := 1,
    description := "Deal 6 damage.", damage := 6, upgrade_damage := 3 }

def defendCard : Card :=
  { name := "Defend", card_type := CardType.SKILL, cost := 1,
    description := "Gain 5 Block.", block := 5, upgrade_block := 3 }

/-- A deck that forces a mid-draw reshuffle when 3 cards are drawn. -/
def sampleDeck : Deck :=
  { draw_pile := [strikeCard], discard_pile := [defendCard, strikeCard],
    hand := [], exhaust_pile := [] }

def emptySampleDeck : Deck :=
  { draw_pile := [], discard_pile := [], hand := [defendCard],
    exhaust_pile := [strikeCard] }

theorem draw_moves_min_count_witness :
    (((sampleDeck.draw (fun l => l) 3).1).length =
        min (Int.toNat 3) (sampleDeck.draw_pile.length +
          sampleDeck.discard_pile.length) ∧
      (sampleDeck.draw (fun l => l) 3).2.hand =
        sampleDeck.hand ++ (sampleDeck.draw (fun l => l) 3).1 ∧
      (sampleDeck.draw (fun l => l) 3).2.exhaust_pile =
        sampleDeck.exhaust_pile ∧
      (sampleDeck.draw_pile = [] → sampleDeck.discard_pile = [] →
        (sampleDeck.draw (fun l => l) 3).1 = [] ∧
        (sampleDeck.draw (fun l => l) 3).2 = sampleDeck)) ∧
    ((emptySampleDeck.draw (fun l => l) 2).1 = [] ∧
      (emptySampleDeck.draw (fun l => l) 2).2 = emptySampleDeck) :=
  ⟨draw_moves_min_count (fun l => l) (fun l => List.Perm.refl l) 3
      (by decide) sampleDeck,
   (draw_moves_min_count (fun l => l) (fun l => List.Perm.refl l) 2
      (by decide) emptySampleDeck).2.2.2 rfl rfl⟩

/-- Removing the first occurrence of a present card shortens the list by
exactly one. -/
theorem removeFirstCard_length (c : Card) :
    ∀ l : List Card, c ∈ l → (removeFirstCard c l).length + 1 = l.length := by
  intro l
  induction l with
  | nil => intro h; cases h
  | cons x xs ih =>
    intro h
    by_cases hx : x = c
    · simp [removeFirstCard, hx]
    · have hmem : c ∈ xs := by
        rcases List.mem_cons.1 h with h' | h'
        · exact absurd h'.symm hx
        · exact h'
      simp only [removeFirstCard, if_neg hx, List.length_cons]
      rw [← ih hmem]

/-- One `draw` / `discard_hand` / `discard_card` call conserves the
draw + discard + hand total. -/
theorem deck_op_preserves_total (shuffle : ShuffleFn)
    (hs : ∀ l, List.Perm (shuffle l) l) (d : Deck) (op : DeckOp) :
    (DeckOp.apply shuffle d op).get_total_cards = d.get_total_cards := by
  cases op with
  | draw_op count =>
    obtain ⟨h1, h2, h3, h4⟩ := draw_aux_spec shuffle hs count.toNat d
    simp only [DeckOp.apply, Deck.draw, Deck.get_total_cards]
    rw [h2]
    simp only [List.length_append]
    omega
  | discard_hand_op =>
    simp only [DeckOp.apply, Deck.discard_hand, Deck.get_total_cards,
      List.length_append, List.length_nil]
    omega
  | discard_card_op card =>
    simp only [DeckOp.apply, Deck.discard_card]
    split_ifs with hmem
    · have := removeFirstCard_length card d.hand hmem
      simp only [Deck.get_total_cards, List.length_append, List.length_cons,
        List.length_nil]
      omega
    · rfl

/-- C5: the draw + discard + hand total is invariant across any sequence of
`draw` / `discard_hand` / `discard_card` calls (none of `add_card`,
`remove_card`, `exhaust_card`), for any permutation shuffle. -/
theorem deck_conservation (shuffle : ShuffleFn)
    (hs : ∀ l, List.Perm (shuffle l) l) (ops : List DeckOp) (d : Deck) :
    (ops.foldl (DeckOp.apply shuffle) d).get_total_cards = d.get_total_cards := by
  induction ops generalizing d with
  | nil => rfl
  | cons op rest ih =>
    rw [List.foldl_cons, ih (DeckOp.apply shuffle d op),
      deck_op_preserves_total shuffle hs d op]

def sampleDeckOps : List DeckOp :=
  [DeckOp.draw_op 2, DeckOp.discard_card_op strikeCard, DeckOp.discard_hand_op,
   DeckOp.draw_op 10, DeckOp.discard_card_op defendCard]

theorem deck_conservation_witness :
    (sampleDeckOps.foldl (DeckOp.apply (fun l => l)) sampleDeck).get_total_cards =
      sampleDeck.get_total_cards :=
  deck_conservation (fun l => l) (fun l => List.Perm.refl l) sampleDeckOps sampleDeck

/-! ## C9 -/

theorem gain_block_energy (c : Character) (a : Int) :
    (c.gain_block a).energy = c.energy := rfl

/-- The status-grant loop never touches the player's energy. -/
theorem apply_card_statuses_energy (entries : List (String × Int)) :
    ∀ (effs : List Effect) (pp : Player) (tt : Option Character),
      ((apply_card_statuses entries (effs, pp, tt)).2.1).energy = pp.energy := by
  induction entries with
  | nil => intro effs pp tt; rfl
  | cons entry rest ih =>
    intro effs pp tt
    cases tt with
    | some t =>
      simp only [apply_card_statuses]
      exact ih _ _ _
    | none =>
      simp only [apply_card_statuses]
      exact ih _ _ _

/-- A card that grants 2 energy for 0 cost (the engine is data-driven: the
`energy_gain` field of card.py `Card`). -/
def energyCard : Card :=
  { name := "Adrenaline", card_type := CardType.SKILL, cost := 0,
    description := "Gain 2 Energy.", energy_gain := 2 }

/-- A player at full energy 3/3 holding `energyCard`. -/
def energyPlayer : Player :=
  { name := "Player", max_hp := 80, current_hp := 80, block := 0,
    status_manager := ⟨[]⟩, energy := 3, max_energy := 3,
    damage_dealt_this_turn := 0,
    deck := some { draw_pile := [], discard_pile := [], hand := [energyCard],
                   exhaust_pile := [] },
    starting_hand_size := 5 }

/-- C9: a successful `Player.play_card` of a card with `energy_gain > 0`
adds exactly `energy_gain` to the player's energy, on top of the spent
cost, with no clamping against `max_energy` — concretely, playing
`energyCard` at 3/3 energy leaves the player at 5 > 3 energy. -/
theorem play_card_energy_gain_uncapped (shuffle : ShuffleFn) (p : Player)
    (card : Card) (t : Option Character) (d : Deck) (hdeck : p.deck = some d)
    (hmem : card ∈ d.hand) (hcost : card.get_cost ≤ p.energy)
    (hgain : 0 < card.energy_gain) :
    (((p.play_card shuffle card t).2.1).energy =
      p.energy - card.get_cost + card.energy_gain) ∧
    (((energyPlayer.play_card (fun l => l) energyCard none).2.1).energy >
      energyPlayer.max_energy) := by
  refine ⟨?_, by decide⟩
  simp only [Player.play_card, hdeck]
  rw [if_neg (show ¬ card ∉ d.hand from fun hn => hn hmem),
    if_neg (not_lt.2 hcost)]
  cases t with
  | none =>
    split_ifs <;> simp only [apply_card_statuses_energy, gain_block_energy]
  | some tc =>
    split_ifs <;> simp only [apply_card_statuses_energy, gain_block_energy]

theorem play_card_energy_gain_uncapped_witness :
    (((energyPlayer.play_card (fun l => l) energyCard none).2.1).energy =
      energyPlayer.energy - energyCard.get_cost + energyCard.energy_gain) ∧
    (((energyPlayer.play_card (fun l => l) energyCard none).2.1).energy >
      energyPlayer.max_energy) :=
  play_card_energy_gain_uncapped (fun l => l) energyPlayer energyCard none
    { draw_pile := [], discard_pile := [], hand := [energyCard],
      exhaust_pile := [] }
    rfl (by decide) (by decide) (by decide)

/-! ## C3 -/

theorem list_set_self {α : Type} :
    ∀ (l : List α) (i : Nat) (h : i < l.length), l.set i l[i] = l := by
  intro l
  induction l with
  | nil => intro i h; cases h
  | cons x xs ih =>
    intro i h
    cases i with
    | zero => rfl
    | succ j =>
      simp only [List.set, List.getElem_cons_succ, List.cons.injEq, true_and]
      exact ih j (by simpa using h)

theorem python_index_nonneg (length : Nat) (i : Int) (h0 : 0 ≤ i)
    (h1 : i < (length : Int)) : python_index length i = some i.toNat := by
  simp only [python_index]
  rw [if_neg (not_lt.2 h0), if_pos ⟨h0, h1⟩]

/-- `Player.play_card` fails without mutation when the card is not in hand
(including when no deck is set). -/
theorem player_play_card_not_in_hand (shuffle : ShuffleFn) (p : Player)
    (card : Card) (t : Option Character)
    (h : p.deck = none ∨ ∃ d, p.deck = some d ∧ card ∉ d.hand) :
    p.play_card shuffle card t = (PlayResult.failure "Card not in hand", p, t) := by
  rcases h with h | ⟨d, hd, hmem⟩
  · simp only [Player.play_card, h]
  · simp only [Player.play_card, hd]
    rw [if_pos hmem]

/-- `Player.play_card` fails without mutation on insufficient energy. -/
theorem player_play_card_no_energy (shuffle : ShuffleFn) (p : Player)
    (card : Card) (t : Option Character) (d : Deck) (hd : p.deck = some d)
    (hmem : card ∈ d.hand) (h : p.energy < card.get_cost) :
    p.play_card shuffle card t = (PlayResult.failure "Not enough energy", p, t) := by
  simp only [Player.play_card, hd]
  rw [if_neg (not_not_intro hmem), if_pos h]

/-- C3 (amended): for a nonnegative `target_index`, `Combat.play_card` is
all-or-nothing on validation failure: whenever the state is not
PLAYER_TURN, or the index is out of range, or the addressed enemy is dead,
or the player has no deck or the card is not in hand, or the energy is
less than the effective cost, the call returns a structured failure result
and the combat state is returned completely unchanged.  (For a negative
`target_index` the source applies Python negative indexing instead: an
index in `-len..-1` silently addresses an enemy from the end of the list
and one below `-len` raises IndexError — see the counterexample.) -/
theorem play_card_all_or_nothing (shuffle : ShuffleFn) (c : Combat)
    (card : Card) (i : Int) (hi : 0 ≤ i)
    (hfail :
      c.state ≠ CombatState.PLAYER_TURN ∨
      (c.enemies.length : Int) ≤ i ∨
      (∃ e, c.enemies[i.toNat]? = some e ∧ ¬ e.is_alive) ∨
      c.player.deck = none ∨
      (∃ d, c.player.deck = some d ∧ card ∉ d.hand) ∨
      c.player.energy < card.get_cost) :
    ∃ msg, c.play_card shuffle card i = some (PlayResult.failure msg, c) := by
  by_cases hst : c.state = CombatState.PLAYER_TURN
  case neg =>
    refine ⟨"Not player turn", ?_⟩
    simp only [Combat.play_card, if_pos hst]
  case pos =>
    by_cases hlen : (c.enemies.length : Int) ≤ i
    case pos =>
      refine ⟨"Invalid target", ?_⟩
      simp only [Combat.play_card, if_neg (not_not_intro hst)]
      rw [if_pos (Or.inr hlen)]
    case neg =>
      have hilen : i < (c.enemies.length : Int) := lt_of_not_le hlen
      have hidx : i.toNat < c.enemies.length := by omega
      have hempty : ¬ (c.enemies.isEmpty = true ∨ (c.enemies.length : Int) ≤ i) := by
        rintro (hemp | hle)
        · rw [List.isEmpty_iff] at hemp
          rw [hemp] at hidx
          exact absurd hidx (by simp)
        · exact hlen hle
      have hpi : python_index c.enemies.length i = some i.toNat :=
        python_index_nonneg _ _ hi hilen
      simp only [Combat.play_card, if_neg (not_not_intro hst), if_neg hempty, hpi,
        dif_pos hidx]
      by_cases halive : c.enemies[i.toNat].is_alive
      case neg =>
        refine ⟨"Target is dead", ?_⟩
        rw [if_pos (by simp [halive])]
      case pos =>
        obtain ⟨msg, hplay⟩ :
            ∃ msg, c.player.play_card shuffle card
                (some c.enemies[i.toNat].toCharacter) =
              (PlayResult.failure msg, c.player,
               some c.enemies[i.toNat].toCharacter) := by
          rcases hfail with hf | hf | hf | hf | hf | hf
          · exact absurd hst hf
          · exact absurd hf hlen
          · obtain ⟨e, he, hdead⟩ := hf
            rw [List.getElem?_eq_getElem hidx] at he
            injection he with he
            rw [he] at halive
            exact absurd halive hdead
          · exact ⟨"Card not in hand",
              player_play_card_not_in_hand shuffle _ _ _ (Or.inl hf)⟩
          · exact ⟨"Card not in hand",
              player_play_card_not_in_hand shuffle _ _ _ (Or.inr hf)⟩
          · match hd : c.player.deck with
            | none =>
              exact ⟨"Card not in hand",
                player_play_card_not_in_hand shuffle _ _ _ (Or.inl hd)⟩
            | some d =>
              by_cases hmem : card ∈ d.hand
              · exact ⟨"Not enough energy",
                  player_play_card_no_energy shuffle _ _ _ d hd hmem hf⟩
              · exact ⟨"Card not in hand",
                  player_play_card_not_in_hand shuffle _ _ _ (Or.inr ⟨d, hd, hmem⟩)⟩
        refine ⟨msg, ?_⟩
        rw [if_neg (by simp [halive]), hplay]
        have heta :
            ({ c.enemies[i.toNat] with
                toCharacter :=
                  (some c.enemies[i.toNat].toCharacter).getD
                    c.enemies[i.toNat].toCharacter } : Enemy) =
              c.enemies[i.toNat] := rfl
        rw [heta, list_set_self c.enemies i.toNat hidx]

/-- A living 20 HP enemy without statuses. -/
def goblinEnemy : Enemy :=
  { name := "Goblin", max_hp := 20, current_hp := 20, block := 0,
    status_manager := ⟨[]⟩, energy := 0, max_energy := 3,
    damage_dealt_this_turn := 0, intent := "attack", intent_damage := 6,
    intent_block := 0, intent_description := "" }

/-- A player holding a Strike, with a deck. -/
def simplePlayer : Player :=
  { name := "Player", max_hp := 80, current_hp := 80, block := 0,
    status_manager := ⟨[]⟩, energy := 3, max_energy := 3,
    damage_dealt_this_turn := 0,
    deck := some { draw_pile := [], discard_pile := [], hand := [strikeCard],
                   exhaust_pile := [] },
    starting_hand_size := 5 }

/-- A combat in PLAYER_TURN with a single living enemy. -/
def cexCombat : Combat :=
  { player := simplePlayer, enemies := [goblinEnemy],
    state := CombatState.PLAYER_TURN, turn_number := 1, combat_log := [] }

/-- C3 counterexample: in PLAYER_TURN with one living enemy, the index -2
does not address a living enemy in range, so the claim demands a
structured failure result with the state unchanged — but the source checks
only `target_index >= len(self.enemies)` and then evaluates
`self.enemies[-2]`, which raises IndexError (the `none` result) instead of
returning a failure dict. -/
theorem play_card_all_or_nothing_counterexample :
    cexCombat.state = CombatState.PLAYER_TURN ∧
    cexCombat.enemies.length = 1 ∧
    cexCombat.play_card (fun l => l) strikeCard (-2) = none := by decide

/-- Concrete instance of C3 (amended): playing a card that costs more than
the available energy fails and leaves the combat untouched. -/
def poorCombat : Combat :=
  { player := { simplePlayer with energy := 0 }, enemies := [goblinEnemy],
    state := CombatState.PLAYER_TURN, turn_number := 1, combat_log := [] }

theorem play_card_all_or_nothing_witness :
    ∃ msg, poorCombat.play_card (fun l => l) strikeCard 0 =
      some (PlayResult.failure msg, poorCombat) :=
  play_card_all_or_nothing (fun l => l) poorCombat strikeCard 0 (by decide)
    (Or.inr (Or.inr (Or.inr (Or.inr (Or.inr (by decide))))))

/-! ## C4 and C10: enemy turn loop lemmas -/

theorem apply_damage_modifier_nonneg (c : Character) (d : Int) :
    0 ≤ c.apply_damage_modifier d := by
  simp only [Character.apply_damage_modifier]
  split_ifs <;> exact le_max_left 0 _

/-- A character at 0 HP (or below) stays at or below 0 HP under
`take_damage` with a nonnegative amount. -/
theorem take_damage_keeps_dead (c : Character) (amount : Int) (ib : Bool)
    (hamt : 0 ≤ amount) (h : ¬ c.is_alive) :
    ¬ ((c.take_damage amount ib).2).is_alive := by
  obtain ⟨_, _, _, hhi⟩ := take_damage_invariants c amount ib hamt
  simp only [Character.is_alive, decide_eq_true_eq] at h ⊢
  omega

/-- `execute_intent` never revives the target: a dead target stays dead. -/
theorem execute_intent_keeps_dead (e : Enemy) (t : Character)
    (h : ¬ t.is_alive) : ¬ ((e.execute_intent t).2.1).is_alive := by
  simp only [Enemy.execute_intent]
  split_ifs
  · exact take_damage_keeps_dead t _ false
      (apply_damage_modifier_nonneg e.toCharacter e.intent_damage) h
  · exact h
  · exact h
  · simpa only [Character.is_alive] using h
  · exact h

/-- A full enemy turn leaves a dead player dead. -/
theorem enemy_turn_keeps_player_dead (t : Nat) (e : Enemy) (p : Player)
    (h : ¬ p.is_alive) : ¬ ((Combat.enemy_turn t e p).2.1).is_alive := by
  simp only [Combat.enemy_turn]
  rcases hE : (Combat.determine_enemy_intent t e.start_turn).execute_intent
      p.toCharacter with ⟨e3, tchar, effs⟩
  have := execute_intent_keeps_dead
    (Combat.determine_enemy_intent t e.start_turn) p.toCharacter h
  rw [hE] at this
  simpa using this

/-- The enemy loop preserves the length of the enemy list. -/
theorem enemy_loop_length (t : Nat) :
    ∀ (es : List Enemy) (p : Player) (lg : List String),
      ((Combat.enemy_loop t es p lg).1).length = es.length := by
  intro es
  induction es with
  | nil => intro p lg; rfl
  | cons e rest ih =>
    intro p lg
    simp only [Combat.enemy_loop]
    split_ifs <;> simp [ih]

/-- Enemies that are not alive are skipped: they appear unchanged at their
position in the loop result. -/
theorem enemy_loop_dead_unchanged (t : Nat) :
    ∀ (es : List Enemy) (p : Player) (lg : List String) (i : Nat) (e : Enemy),
      es[i]? = some e → ¬ e.is_alive →
      ((Combat.enemy_loop t es p lg).1)[i]? = some e := by
  intro es
  induction es with
  | nil => intro p lg i e h; simp at h
  | cons x rest ih =>
    intro p lg i e h hdead
    simp only [Combat.enemy_loop]
    split_ifs with hx hp2
    · cases i with
      | zero => simpa using h
      | succ j => simpa using ih p lg j e (by simpa using h) hdead
    · cases i with
      | zero =>
        simp only [List.getElem?_cons_zero, Option.some.injEq] at h
        subst h
        simp at hx
        exact absurd hx hdead
      | succ j => simpa using h
    · cases i with
      | zero =>
        simp only [List.getElem?_cons_zero, Option.some.injEq] at h
        subst h
        simp at hx
        exact absurd hx hdead
      | succ j => simpa using ih _ _ j e (by simpa using h) hdead

/-- When the enemy loop declares defeat, there is an acting (living) enemy
position `k` such that every enemy after position `k` is returned
untouched, and running the loop on just the first `k+1` enemies produces
the same player, the same log and the same defeat — the enemies after the
acting one contribute nothing. -/
theorem enemy_loop_defeat_trunc (t : Nat) :
    ∀ (es : List Enemy) (p : Player) (lg : List String),
      (Combat.enemy_loop t es p lg).2.2.2 = true →
      ∃ k, ∃ hk : k < es.length,
        (es[k]).is_alive ∧
        ((Combat.enemy_loop t es p lg).1).drop (k+1) = es.drop (k+1) ∧
        Combat.enemy_loop t (es.take (k+1)) p lg =
          (((Combat.enemy_loop t es p lg).1).take (k+1),
           (Combat.enemy_loop t es p lg).2.1,
           (Combat.enemy_loop t es p lg).2.2.1,
           true) := by
  intro es
  induction es with
  | nil =>
    intro p lg h
    simp [Combat.enemy_loop] at h
  | cons e rest ih =>
    intro p lg h
    simp only [Combat.enemy_loop] at h ⊢
    split_ifs at h ⊢ with hx hp2
    · obtain ⟨k, hk, halive, hdrop, htrunc⟩ := ih p lg (by simpa using h)
      refine ⟨k + 1, by simpa using Nat.succ_lt_succ hk, ?_, ?_, ?_⟩
      · simpa using halive
      · simpa using hdrop
      · simp only [List.take_succ_cons, Combat.enemy_loop, if_pos hx, htrunc]
    · refine ⟨0, by simp, by simpa using hx, by simp, ?_⟩
      simp only [List.take_succ_cons, List.take_zero, Combat.enemy_loop,
        if_pos hx]
    · obtain ⟨k, hk, halive, hdrop, htrunc⟩ :=
        ih (Combat.enemy_turn t e p).2.1 (lg ++ (Combat.enemy_turn t e p).2.2)
          (by simpa using h)
      refine ⟨k + 1, by simpa using Nat.succ_lt_succ hk, ?_, ?_, ?_⟩
      · simpa using halive
      · simpa using hdrop
      · simp only [List.take_succ_cons, Combat.enemy_loop, if_pos hx]
        simp only [htrunc]

/-- Running the enemy loop with the player already dead: the dead enemies
before the first living one are skipped, the first living enemy takes its
full turn, defeat is declared immediately after it, and every enemy after
it is untouched. -/
theorem enemy_loop_from_dead (t : Nat) :
    ∀ (es : List Enemy) (p : Player) (lg : List String),
      ¬ p.is_alive →
      ∀ k, ∀ hk : k < es.length,
        (∀ j, j < k → ∀ hj : j < es.length, ¬ (es[j]).is_alive) →
        (es[k]).is_alive →
        Combat.enemy_loop t es p lg =
          (es.take k ++ (Combat.enemy_turn t es[k] p).1 :: es.drop (k+1),
           (Combat.enemy_turn t es[k] p).2.1,
           lg ++ (Combat.enemy_turn t es[k] p).2.2 ++ ["\n=== DEFEAT! ==="],
           true) := by
  intro es
  induction es with
  | nil =>
    intro p lg hdead k hk
    exact absurd hk (by simp)
  | cons e rest ih =>
    intro p lg hdead k hk hprefix halive
    cases k with
    | zero =>
      simp only [List.getElem_cons_zero] at halive
      have hp2 : (!((Combat.enemy_turn t e p).2.1).is_alive) = true := by
        simpa using enemy_turn_keeps_player_dead t e p hdead
      simp only [Combat.enemy_loop, if_neg (by simp [halive] :
        ¬ (!e.is_alive) = true), if_pos hp2]
      simp
    | succ k =>
      have he : ¬ e.is_alive := by
        have := hprefix 0 (Nat.succ_pos k) (by simp)
        simpa using this
      have hk' : k < rest.length := by simpa using hk
      have hrec := ih p lg hdead k hk'
        (fun j hj hjl => by
          have := hprefix (j+1) (by omega) (by simpa using hjl)
          simpa using this)
        (by simpa using halive)
      simp only [Combat.enemy_loop, if_pos (by simp [he] : (!e.is_alive) = true),
        hrec]
      simp

/-- A successful `start_player_turn` always ends in PLAYER_TURN. -/
theorem start_player_turn_state (shuffle : ShuffleFn) (c c' : Combat)
    (h : c.start_player_turn shuffle = some c') :
    c'.state = CombatState.PLAYER_TURN := by
  simp only [Combat.start_player_turn] at h
  split at h
  · cases h
  · injection h with h
    rw [← h]

/-- C4: whenever `_start_enemy_turns` ends in DEFEAT, there is an acting
living enemy position `k` such that every enemy after position `k` is
returned untouched and running `_start_enemy_turns` on the combat truncated
to the first `k+1` enemies yields the very same player, log and DEFEAT
state (so no enemy after the killing one acts: none of its effects occur or
reach the log); moreover enemies that are not alive are skipped and appear
unchanged at their positions. -/
theorem start_enemy_turns_defeat_stops (shuffle : ShuffleFn) (c c' : Combat)
    (hrun : c.start_enemy_turns shuffle = some c')
    (hdef : c'.state = CombatState.DEFEAT) :
    (∃ k, ∃ hk : k < c.enemies.length,
      (c.enemies[k]).is_alive ∧
      c'.enemies.drop (k+1) = c.enemies.drop (k+1) ∧
      Combat.start_enemy_turns { c with enemies := c.enemies.take (k+1) } shuffle =
        some { c' with enemies := c'.enemies.take (k+1) }) ∧
    (∀ (i : Nat) (e : Enemy), c.enemies[i]? = some e → ¬ e.is_alive →
      c'.enemies[i]? = some e) := by
  simp only [Combat.start_enemy_turns] at hrun
  by_cases hdfl : (Combat.enemy_loop c.turn_number c.enemies c.player
      c.combat_log).2.2.2 = true
  case neg =>
    rw [if_neg hdfl] at hrun
    have := start_player_turn_state shuffle _ _ hrun
    rw [this] at hdef
    cases hdef
  case pos =>
    rw [if_pos hdfl] at hrun
    injection hrun with hrun
    obtain ⟨k, hk, halive, hdrop, htrunc⟩ :=
      enemy_loop_defeat_trunc c.turn_number c.enemies c.player c.combat_log hdfl
    constructor
    · refine ⟨k, hk, halive, ?_, ?_⟩
      · rw [← hrun]
        exact hdrop
      · simp only [Combat.start_enemy_turns, htrunc]
        rw [← hrun]
        exact rfl
    · intro i e hi hdead
      rw [← hrun]
      exact enemy_loop_dead_unchanged c.turn_number c.enemies c.player
        c.combat_log i e hi hdead

/-- A player at 1 HP who will die to the first enemy attack. -/
def dyingPlayer : Player :=
  { name := "Player", max_hp := 80, current_hp := 1, block := 0,
    status_manager := ⟨[]⟩, energy := 0, max_energy := 3,
    damage_dealt_this_turn := 0,
    deck := some { draw_pile := [], discard_pile := [], hand := [],
                   exhaust_pile := [] },
    starting_hand_size := 5 }

/-- A combat on turn 1 (both enemies would attack for 6) with the player at
1 HP: the first enemy's attack kills the player mid-loop. -/
def defeatCombat : Combat :=
  { player := dyingPlayer, enemies := [goblinEnemy, goblinEnemy],
    state := CombatState.ENEMY_TURN, turn_number := 1, combat_log := [] }

def defeatRunCombat : Combat :=
  (defeatCombat.start_enemy_turns (fun l => l)).getD defeatCombat

theorem start_enemy_turns_defeat_stops_witness :
    (∃ k, ∃ hk : k < defeatCombat.enemies.length,
      (defeatCombat.enemies[k]).is_alive ∧
      defeatRunCombat.enemies.drop (k+1) = defeatCombat.enemies.drop (k+1) ∧
      Combat.start_enemy_turns
          { defeatCombat with enemies := defeatCombat.enemies.take (k+1) }
          (fun l => l) =
        some { defeatRunCombat with
               enemies := defeatRunCombat.enemies.take (k+1) }) ∧
    (∀ (i : Nat) (e : Enemy), defeatCombat.enemies[i]? = some e →
      ¬ e.is_alive → defeatRunCombat.enemies[i]? = some e) :=
  start_enemy_turns_defeat_stops (fun l => l) defeatCombat defeatRunCombat
    rfl rfl

/-! ## C10 -/

/-- C10: `end_player_turn` itself never inspects the player's HP.  From
PLAYER_TURN, when the player is dead after `player.end_turn` (for example
from Burn self-damage): with every enemy dead the state still becomes
VICTORY; with a first living enemy at position `k` (all before it dead),
the combat proceeds into the enemy turns, that enemy takes its complete
turn against the already-dead player, and only then is DEFEAT declared —
the resulting player and enemy list are exactly those of that one full
enemy turn. -/
theorem end_player_turn_defers_defeat (shuffle : ShuffleFn) (c : Combat)
    (hst : c.state = CombatState.PLAYER_TURN)
    (hdead : ¬ (c.player.end_turn).is_alive) :
    ((∀ e ∈ c.enemies, ¬ e.is_alive) →
      ∃ c', c.end_player_turn shuffle = some c' ∧
        c'.state = CombatState.VICTORY) ∧
    (∀ k, ∀ hk : k < c.enemies.length,
      (∀ j, j < k → ∀ hj : j < c.enemies.length, ¬ (c.enemies[j]).is_alive) →
      (c.enemies[k]).is_alive →
      ∃ c', c.end_player_turn shuffle = some c' ∧
        c'.state = CombatState.DEFEAT ∧
        c'.player = (Combat.enemy_turn c.turn_number c.enemies[k]
          c.player.end_turn).2.1 ∧
        c'.enemies = c.enemies.take k ++
          (Combat.enemy_turn c.turn_number c.enemies[k] c.player.end_turn).1 ::
            c.enemies.drop (k+1)) := by
  constructor
  · intro hall
    have hball : c.enemies.all (fun e => !e.is_alive) = true := by
      rw [List.all_eq_true]
      intro e he
      simpa using hall e he
    simp only [Combat.end_player_turn, if_neg (not_not_intro hst), if_pos hball]
    exact ⟨_, rfl, rfl⟩
  · intro k hk hprefix halive
    have hnall : ¬ (c.enemies.all (fun e => !e.is_alive)) = true := by
      rw [List.all_eq_true]
      intro hall
      have := hall c.enemies[k] (List.getElem_mem hk)
      simp only [Bool.not_eq_true] at this
      rw [halive] at this
      cases this
    have hloop := enemy_loop_from_dead c.turn_number c.enemies
      (c.player.end_turn) (c.combat_log ++ ["\nPlayer's turn ends."])
      hdead k hk hprefix halive
    simp only [Combat.end_player_turn, if_neg (not_not_intro hst),
      if_neg hnall, Combat.start_enemy_turns]
    rw [hloop]
    exact ⟨_, rfl, rfl, rfl, rfl⟩

/-- A dead enemy (0 HP). -/
def deadGoblin : Enemy :=
  { name := "Slain Goblin", max_hp := 20, current_hp := 0, block := 0,
    status_manager := ⟨[]⟩, energy := 0, max_energy := 3,
    damage_dealt_this_turn := 0, intent := "attack", intent_damage := 6,
    intent_block := 0, intent_description := "" }

/-- A player at 2 HP with Burn 3: end_turn burn self-damage kills them. -/
def burnPlayer : Player :=
  { name := "Player", max_hp := 80, current_hp := 2, block := 0,
    status_manager := ⟨[{ name := "burn", amount := 3,
                          status_type := StatusType.DEBUFF }]⟩,
    energy := 0, max_energy := 3, damage_dealt_this_turn := 0,
    deck := some { draw_pile := [], discard_pile := [], hand := [],
                   exhaust_pile := [] },
    starting_hand_size := 5 }

/-- PLAYER_TURN combat where ending the turn kills the player via Burn;
the first enemy is dead, the second alive. -/
def burnCombat : Combat :=
  { player := burnPlayer, enemies := [deadGoblin, goblinEnemy],
    state := CombatState.PLAYER_TURN, turn_number := 1, combat_log := [] }

theorem end_player_turn_defers_defeat_witness :
    ∃ c', burnCombat.end_player_turn (fun l => l) = some c' ∧
      c'.state = CombatState.DEFEAT ∧
      c'.player = (Combat.enemy_turn burnCombat.turn_number
        burnCombat.enemies[1] burnCombat.player.end_turn).2.1 ∧
      c'.enemies = burnCombat.enemies.take 1 ++
        (Combat.enemy_turn burnCombat.turn_number burnCombat.enemies[1]
          burnCombat.player.end_turn).1 :: burnCombat.enemies.drop 2 :=
  (end_player_turn_defers_defeat (fun l => l) burnCombat rfl (by decide)).2
    1 (by decide)
    (by
      intro j hj hjl
      have hj0 : j = 0 := by omega
      subst hj0
      exact (by decide : ¬ deadGoblin.is_alive = true))
    (by decide)
